import Mathlib

/-!
Verification of the ElectionSim persona-based voting simulation against its
specification.  The frontend TypeScript sources (API client, result-record
type declarations, chart components) are embedded directly; the backend
engine (persona generation, vote calculation, calibration, aggregation,
validation, comparison) is present in the tree only through its
documentation and its frontend-facing type declarations, so those
operations are modelled from the spec, as marked on each definition.
-/

set_option maxHeartbeats 1000000
set_option linter.unusedSectionVars false

namespace ElectionSim

/-- Swing-tendency classes.  The six classes are transcribed from the
frontend SwingBadge component (part_012) and the architecture doc, table
4.2; the inductive has exactly these six constructors. -/
inductive SwingTendency where
  | veryLow
  | low
  | moderate
  | moderateHigh
  | high
  | veryHigh
  deriving DecidableEq, Repr

/-- Modelled from the spec: a synthetic voter agent (Persona) with the
attributes consumed by the vote calculator.  The backend generator source
is not in the tree; attributes follow spec section 3 and the
PersonaArchetype declaration in types/index.ts. -/
structure Persona where
  archetype : Nat
  age : Nat
  leaning : Option String
  turnoutProb : ℚ
  swing : SwingTendency
  deriving DecidableEq, Repr

/-- Candidate reference data, embedded from the Candidate interface in
types/index.ts (the fields the scoring model consults). -/
structure Candidate where
  id : Nat
  party_id : String
  is_incumbent : Bool
  previous_wins : Nat
  dual_candidacy : Bool
  deriving DecidableEq, Repr

/-- The six voting-decision factors.  Transcribed from the architecture
doc table 4.1 and the FACTOR_LABELS catalog of VotingFactorsChart
(part_003), which lists exactly these six keys. -/
inductive Factor where
  | party_loyalty
  | policy_alignment
  | candidate_appeal
  | media_influence
  | local_connection
  | strategic_voting
  deriving DecidableEq, Repr

/-- The fixed order in which the six factors enter the weighted sum. -/
def factorList : List Factor :=
  [Factor.party_loyalty, Factor.policy_alignment, Factor.candidate_appeal,
   Factor.media_influence, Factor.local_connection, Factor.strategic_voting]

/-- Modelled from the spec: default factor weights of the six-factor
voting model (architecture doc table 4.1; vote_calculator.py is not in
the tree). -/
def defaultWeight : Factor → ℚ
  | Factor.party_loyalty => 30 / 100
  | Factor.policy_alignment => 25 / 100
  | Factor.candidate_appeal => 20 / 100
  | Factor.media_influence => 10 / 100
  | Factor.local_connection => 10 / 100
  | Factor.strategic_voting => 5 / 100

/-- Modelled from the spec: Gaussian noise standard deviation per
swing-tendency class (architecture doc table 4.2). -/
def noiseSigma : SwingTendency → ℚ
  | SwingTendency.veryLow => 5 / 100
  | SwingTendency.low => 10 / 100
  | SwingTendency.moderate => 20 / 100
  | SwingTendency.moderateHigh => 25 / 100
  | SwingTendency.high => 35 / 100
  | SwingTendency.veryHigh => 45 / 100

/-- External tables the factor scores consult: the manifesto
archetype-to-party policy table and the district party-support proxy.
These catalogs are configuration data, not code, so they are parameters
of the scoring model. -/
structure ScoringContext where
  policyScore : Nat → String → ℚ
  partySupport : String → ℚ

/-- Modelled from the spec: per-factor score of one candidate for one
persona (architecture doc table 4.1 score-computation column). -/
def factorScore (ctx : ScoringContext) : Factor → Persona → Candidate → ℚ
  | Factor.party_loyalty, p, c =>
      match p.leaning with
      | none => 3 / 10
      | some pl => if pl = c.party_id then 1 else 1 / 10
  | Factor.policy_alignment, p, c => ctx.policyScore p.archetype c.party_id
  | Factor.candidate_appeal, _, c =>
      (if c.is_incumbent then 3 / 10 else 0) +
        min ((c.previous_wins : ℚ) * (5 / 100)) (2 / 10)
  | Factor.media_influence, _, c => ctx.partySupport c.party_id
  | Factor.local_connection, _, c => if c.is_incumbent then 3 / 10 else 0
  | Factor.strategic_voting, _, c =>
      (if c.is_incumbent then 2 / 10 else 0) -
        (if c.dual_candidacy then 1 / 10 else 0)

/-- Modelled from the spec: total candidate score, the weighted sum of the
six factor scores plus an additive noise term drawn with standard
deviation `noiseSigma` of the persona's swing class. -/
def candidateScore (ctx : ScoringContext) (w : Factor → ℚ)
    (p : Persona) (c : Candidate) (noise : ℚ) : ℚ :=
  (factorList.map (fun f => w f * factorScore ctx f p c)).sum + noise

/-- Modelled from the spec: whether a persona's decision is delegated to
the generative Tier-2 path (architecture doc table 4.2: classes moderate
and above delegate, very_low and low do not). -/
def delegatesToLLM : SwingTendency → Bool
  | SwingTendency.veryLow => false
  | SwingTendency.low => false
  | SwingTendency.moderate => true
  | SwingTendency.moderateHigh => true
  | SwingTendency.high => true
  | SwingTendency.veryHigh => true

/-- Generic first-preferring argmax over a list with an accumulator: the
earliest element attaining the maximal score is kept. -/
def argmaxFrom (f : α → ℚ) : α → List α → α
  | w, [] => w
  | w, c :: cs => argmaxFrom f (if f w < f c then c else w) cs

/-- Modelled from the spec: deterministic noise value attached to a
persona's Tier-1 scoring, derived from its generated attributes so that
the whole Tier-1 path is a pure function of the persona. -/
def personaNoise (p : Persona) : ℚ :=
  noiseSigma p.swing * (((p.archetype % 21 : Nat) : ℚ) - 10) / 10

/-- Modelled from the spec: the Tier-1 deterministic choice, the argmax of
the candidate scores. -/
def tier1Choice (ctx : ScoringContext) (p : Persona) : List Candidate → Option Nat
  | [] => none
  | c :: cs =>
      some (argmaxFrom (fun d => candidateScore ctx defaultWeight p d (personaNoise p))
        c cs).id

/-- Outcome of routing one persona: an immediately resolved Tier-1 choice,
or deferral to the generative Tier-2 delegate. -/
inductive DecisionRoute where
  | tier1 (choice : Option Nat)
  | tier2
  deriving DecidableEq, Repr

/-- Modelled from the spec: the routing function of the two-tier
architecture, a total function of the persona's swing-tendency class. -/
def routePersona (ctx : ScoringContext) (p : Persona) (cands : List Candidate) :
    DecisionRoute :=
  if delegatesToLLM p.swing then DecisionRoute.tier2
  else DecisionRoute.tier1 (tier1Choice ctx p cands)

/-- Modelled from the spec: one persona's resolved outcome as consumed by
the result aggregator — turnout flag, chosen district candidate and
chosen proportional party (spec section 3, VoteDecision). -/
structure VoteDecision where
  voted : Bool
  smdChoice : Nat
  prChoice : String
  deriving DecidableEq, Repr

/-- District choices cast by the personas that turned out. -/
def votedChoices (ds : List VoteDecision) : List Nat :=
  (ds.filter (fun d => d.voted)).map (fun d => d.smdChoice)

/-- Number of personas that turned out in the district. -/
def turnoutCount (ds : List VoteDecision) : Nat :=
  (ds.filter (fun d => d.voted)).length

/-- Modelled from the spec: votes received by candidate `c` in the
district tally. -/
def votesFor (ds : List VoteDecision) (c : Nat) : Nat :=
  (votedChoices ds).count c

/-- Whether candidate `c` beats the current best `w` under the documented
deterministic tie-break (more votes, or equal votes and lower id). -/
def beats (votes : Nat → Nat) (c w : Nat) : Bool :=
  votes w < votes c || (votes c == votes w && c < w)

/-- Modelled from the spec: scan selecting the winner among the remaining
candidates, keeping the tie-break of `beats`. -/
def pickWinner (votes : Nat → Nat) : Nat → List Nat → Nat
  | w, [] => w
  | w, c :: cs => pickWinner votes (if beats votes c w then c else w) cs

/-- Modelled from the spec: district winner, the vote argmax with the
lowest-id tie-break. -/
def districtWinner (votes : Nat → Nat) : List Nat → Nat
  | [] => 0
  | c :: cs => pickWinner votes c cs

/-- Modelled from the spec: the runner-up vote count, the best vote total
among the candidates other than the winner. -/
def runnerUpVotes (votes : Nat → Nat) (cands : List Nat) : Nat :=
  ((cands.filter (fun c => c ≠ districtWinner votes cands)).map votes).foldr max 0

/-- Aggregate district record, mirroring the numeric fields of the
SimulationDistrictResult interface in types/index.ts. -/
structure DistrictResultRec where
  turnout_count : Nat
  winner : Nat
  winner_votes : Nat
  runner_up_votes : Nat
  margin : Int
  deriving DecidableEq, Repr

/-- Modelled from the spec: the district-level aggregation of the result
aggregator — tally VoteDecisions per candidate, select the winner and
runner-up, record the margin. -/
def aggregateDistrict (cands : List Nat) (ds : List VoteDecision) :
    DistrictResultRec :=
  let votes := votesFor ds
  let w := districtWinner votes cands
  { turnout_count := turnoutCount ds
    winner := w
    winner_votes := votes w
    runner_up_votes := runnerUpVotes votes cands
    margin := (votes w : Int) - (runnerUpVotes votes cands : Int) }

/-- Modelled from the spec: the highest-averages quotient of a party, its
vote total divided by one more than the seats it already holds. -/
def quotaScore (votes : String → Nat) (alloc : String → Nat) (p : String) : ℚ :=
  (votes p : ℚ) / ((alloc p : ℚ) + 1)

/-- Modelled from the spec: highest-averages (D'Hondt) seat allocation for
one proportional block — repeatedly award the next seat to the party with
the largest current quotient (divisors 1, 2, 3, ...), ties broken by list
order. -/
def dhondtAlloc (parties : List String) (votes : String → Nat) :
    Nat → String → Nat
  | 0 => fun _ => 0
  | n + 1 =>
    let a := dhondtAlloc parties votes n
    match parties with
    | [] => a
    | p :: ps =>
      let w := argmaxFrom (quotaScore votes a) p ps
      fun q => if q = w then a q + 1 else a q

/-- Modelled from the spec: a deterministic stand-in for the district-id
hash used in the engine seeding formula; any pure function of the
identifier satisfies the doc's contract. -/
def strHash (s : String) : Nat :=
  s.foldl (fun h c => (h * 31 + c.toNat) % 1000000007) 7

/-- Modelled from the spec: the per-district RNG seed of the engine,
`seed + hash(district_id) % 10000` (architecture doc section 2.3), a pure
function of the global seed and the district identifier. -/
def districtSeed (seed : Nat) (districtId : String) : Nat :=
  seed + strHash districtId % 10000

/-- Modelled from the spec: one step of the per-district pseudorandom
stream (a linear congruential generator stands in for Python's
Mersenne twister; only determinism matters to the properties proved). -/
def lcgNext (s : Nat) : Nat := (1103515245 * s + 12345) % 4294967296

/-- Modelled from the spec: the party catalog sampled by the stand-in
persona generator. -/
def partyCatalog : List String := ["ldp", "chudo", "ishin", "kyosan"]

/-- Modelled from the spec: swing-tendency class derived from one random
draw. -/
def swingOfNat (n : Nat) : SwingTendency :=
  match n % 6 with
  | 0 => SwingTendency.veryLow
  | 1 => SwingTendency.low
  | 2 => SwingTendency.moderate
  | 3 => SwingTendency.moderateHigh
  | 4 => SwingTendency.high
  | _ => SwingTendency.veryHigh

/-- Modelled from the spec: deterministic archetype-style persona
generation — a fixed-size population drawn from the district's seeded
pseudorandom stream, every persona carrying a turnout probability and a
swing-tendency class. -/
def genPersonas (seed : Nat) : Nat → List Persona
  | 0 => []
  | n + 1 =>
    let r := lcgNext seed
    { archetype := r % 15
      age := 18 + r / 15 % 70
      leaning := if r % 4 == 0 then none
                 else partyCatalog.get? (r % partyCatalog.length)
      turnoutProb := ((r / 7 % 101 : Nat) : ℚ) / 100
      swing := swingOfNat (r / 11) } :: genPersonas r n

/-- Per-district simulation output: the generated persona population and
the Tier-1 decisions (none marks deferral to Tier 2). -/
structure DistrictOutput where
  personas : List Persona
  tier1 : List (Option Nat)
  deriving DecidableEq, Repr

/-- Modelled from the spec: one district worker's computation — generate
the personas from the district-derived seed, then resolve every
non-delegated persona by the deterministic Tier-1 argmax.  A pure
function of the global seed and the district identifier. -/
def simulateDistrict (ctx : ScoringContext) (seed count : Nat)
    (cands : List Candidate) (districtId : String) : DistrictOutput :=
  let ps := genPersonas (districtSeed seed districtId) count
  { personas := ps
    tier1 := ps.map (fun p =>
      if delegatesToLLM p.swing then none else tier1Choice ctx p cands) }

/-- Modelled from the spec: one worker of the district pool processing its
queue of districts in order, producing results keyed by district id. -/
def runWorker (ctx : ScoringContext) (seed count : Nat)
    (cands : List Candidate) (queue : List String) :
    List (String × DistrictOutput) :=
  queue.map (fun d => (d, simulateDistrict ctx seed count cands d))

/-- Modelled from the spec: a full run over a worker pool — each queue is
one worker's share of the districts; pool size 1 is a single queue, pool
size 8 is eight queues. -/
def runPool (ctx : ScoringContext) (seed count : Nat)
    (cands : List Candidate) (queues : List (List String)) :
    List (String × DistrictOutput) :=
  (queues.map (runWorker ctx seed count cands)).flatten

/-- Result of district `d` in a completed run, by key lookup. -/
def runResult (results : List (String × DistrictOutput)) (d : String) :
    Option DistrictOutput :=
  List.lookup d results

/-- Modelled from the spec: total over-representation mass — the summed
excess share of the parties above target (architecture doc 4.4, Stage 3
calibration). -/
def totalOver (ps : List String) (cur tgt : String → ℚ) : ℚ :=
  (ps.map (fun p => max (cur p - tgt p) 0)).sum

/-- Modelled from the spec: total under-representation mass — the summed
deficit share of the parties below target. -/
def totalUnder (ps : List String) (cur tgt : String → ℚ) : ℚ :=
  (ps.map (fun p => max (tgt p - cur p) 0)).sum

/-- Modelled from the spec: the expected party share after the Stage 3
calibration flip pass at strength `s` — each over-represented party loses
the `s` fraction of its excess, and the freed mass is distributed to the
under-represented parties weighted by their degree of
under-representation (architecture doc 4.4; calibrate_decisions is not in
the tree). -/
def calibratedShare (ps : List String) (cur tgt : String → ℚ) (s : ℚ)
    (p : String) : ℚ :=
  if tgt p < cur p then cur p - (cur p - tgt p) * s
  else if cur p < tgt p then
    cur p + (tgt p - cur p) / totalUnder ps cur tgt * totalOver ps cur tgt * s
  else cur p

/-- L1 distance between two party share distributions over the party
list. -/
def l1Distance (ps : List String) (a b : String → ℚ) : ℚ :=
  (ps.map (fun p => |a p - b p|)).sum

/-- Validation check record, embedded from the ValidationCheck interface
in types/index.ts. -/
structure ValidationCheck where
  name : String
  passed : Bool
  detail : String
  deriving DecidableEq, Repr

/-- Validation report, embedded from the ValidationReport interface in
types/index.ts. -/
structure ValidationReport where
  checks : List ValidationCheck
  warnings : List String
  errors : List String
  passed : Bool
  deriving DecidableEq, Repr

/-- Modelled from the spec: the per-district aggregate facts the validator
battery examines (validators.py is not in the tree; fields follow the
doc 3.5 check table and the SimulationDistrictResult declaration). -/
structure DistrictFacts where
  district_id : String
  persona_count : Nat
  turnout_count : Nat
  candidate_votes : List Int
  winner_votes : Int
  runner_up_votes : Int
  proportional_total : Int
  deriving DecidableEq, Repr

/-- Modelled from the spec: validator configuration — the configured
persona count and the plausible turnout band. -/
structure ValidatorConfig where
  expected_personas : Nat
  turnout_low : ℚ
  turnout_high : ℚ
  deriving DecidableEq, Repr

/-- Turnout rate of a district's facts. -/
def turnoutRate (d : DistrictFacts) : ℚ :=
  (d.turnout_count : ℚ) / (d.persona_count : ℚ)

/-- Modelled from the spec: district-id format check (doc 3.5: a valid id
looks like `XX_N`). -/
def validIdFormat (s : String) : Bool :=
  match s.splitOn "_" with
  | [a, b] => a.length > 0 && b.length > 0 && b.toList.all Char.isDigit
  | _ => false

/-- Modelled from the spec: the fixed names of the seven validator checks,
in battery order (doc 3.5). -/
def checkNames : List String :=
  ["persona_count", "turnout_range", "vote_conservation", "winner_validity",
   "no_negative_votes", "district_id_format", "proportional_consistency"]

/-- Modelled from the spec: pass predicates of the seven checks, per
district (doc 3.5 table). -/
def checkPassed (cfg : ValidatorConfig) (idx : Nat) (d : DistrictFacts) : Bool :=
  match idx with
  | 0 => d.persona_count == cfg.expected_personas
  | 1 => decide (cfg.turnout_low ≤ turnoutRate d) &&
         decide (turnoutRate d ≤ cfg.turnout_high)
  | 2 => d.candidate_votes.sum == (d.turnout_count : Int)
  | 3 => d.candidate_votes.all (fun v => v ≤ d.winner_votes) &&
         d.runner_up_votes ≤ d.winner_votes
  | 4 => d.candidate_votes.all (fun v => 0 ≤ v)
  | 5 => validIdFormat d.district_id
  | _ => d.proportional_total ≤ (d.turnout_count : Int)

/-- Modelled from the spec: which checks are hard failures — the
aggregation-invariant checks (conservation, winner validity,
non-negativity) per spec section 7; the rest are soft. -/
def hardCheck : Nat → Bool
  | 2 => true
  | 3 => true
  | 4 => true
  | _ => false

/-- The battery's check indices, in order. -/
def checkIndices : List Nat := [0, 1, 2, 3, 4, 5, 6]

/-- Modelled from the spec: run the fixed battery over every district's
facts and emit the structured report; every check is evaluated and
recorded whether it passes or fails, so a completed run always gets a
full report. -/
def validate (cfg : ValidatorConfig) (rs : List DistrictFacts) :
    ValidationReport :=
  let checks := checkIndices.map (fun i =>
    { name := checkNames.getD i ""
      passed := rs.all (checkPassed cfg i)
      detail := if rs.all (checkPassed cfg i) then "ok" else "failed"
      : ValidationCheck })
  let errors := (checkIndices.filter
    (fun i => hardCheck i && !rs.all (checkPassed cfg i))).map
      (fun i => checkNames.getD i "")
  let warnings := (checkIndices.filter
    (fun i => !hardCheck i && !rs.all (checkPassed cfg i))).map
      (fun i => checkNames.getD i "")
  { checks := checks
    warnings := warnings
    errors := errors
    passed := errors.isEmpty }

/-- Modelled from the spec: the district-level figures of one run that
the comparison engine reads — winning party, turnout rate, and victory
margin (spec 4.7; `π` is the party type, strings in the repository). -/
structure DistrictEntry (π : Type) where
  winner : π
  turnout : ℚ
  margin : ℚ
  deriving DecidableEq, Repr

section Comparison

variable {ι π : Type} [DecidableEq ι] [DecidableEq π]

/-- Modelled from the spec: the record of district `i` in a run, where a
run is the association list from district identifier to that district's
entry (ids are strings in the repository; the identifier type is kept
abstract). -/
def lookupWinner (i : ι) : List (ι × π) → Option π
  | [] => none
  | (k, v) :: es => if i = k then some v else lookupWinner i es

/-- Modelled from the spec: district identifiers shared by both compared
runs.  Districts present in only one side do not appear. -/
def commonIds (a b : List (ι × π)) : List ι :=
  (a.map Prod.fst).filter (fun i => i ∈ b.map Prod.fst)

/-- Modelled from the spec: `common_districts`, the number of shared
districts reported by the comparison engine. -/
def commonDistricts (a b : List (ι × π)) : Nat :=
  (commonIds a b).length

/-- Modelled from the spec: the paired per-district data of the two runs
over exactly the shared districts; every metric of the comparison report
is computed from this list, which is what excludes one-sided districts
from all metrics. -/
def pairedOf (a b : List (ι × π)) : List (π × π) :=
  (commonIds a b).filterMap (fun i =>
    (lookupWinner i a).bind (fun x => (lookupWinner i b).map (fun y => (x, y))))

/-- Modelled from the spec: fraction of paired districts whose winning
party is identical; on the full paired list this is `winner_match_rate`,
and on the battleground subset it is `battleground_accuracy`. -/
def matchRateOf (paired : List (DistrictEntry π × DistrictEntry π)) : ℚ :=
  (paired.countP (fun pr => decide (pr.1.winner = pr.2.winner)) : ℚ) /
    (paired.length : ℚ)

/-- Modelled from the spec: seats a party wins on one side of the paired
data — the number of shared districts where it is the winner. -/
def seatsWon (p : π) (side : List (DistrictEntry π)) : Nat :=
  side.countP (fun e => decide (e.winner = p))

/-- Modelled from the spec: `seat_mae`, the mean absolute error of the
per-party seat counts over the paired districts. -/
def seatMae (parties : List π)
    (paired : List (DistrictEntry π × DistrictEntry π)) : ℚ :=
  (parties.map (fun p =>
    |((seatsWon p (paired.map Prod.fst) : ℚ)) -
      ((seatsWon p (paired.map Prod.snd) : ℚ))|)).sum / (parties.length : ℚ)

/-- Modelled from the spec: the Pearson correlation of a paired sample,
represented in ℚ by its sign-preserving square
`cov·|cov| / (var·var)` — the correlation itself is the signed square
root, so any invariance of this rational value is equivalent to
invariance of the correlation (a real square root is not available as an
executable function). -/
def corrSq (pairs : List (ℚ × ℚ)) : ℚ :=
  let n : ℚ := (pairs.length : ℚ)
  let mx := (pairs.map Prod.fst).sum / n
  let my := (pairs.map Prod.snd).sum / n
  let cov := (pairs.map (fun pr => (pr.1 - mx) * (pr.2 - my))).sum
  let vx := (pairs.map (fun pr => (pr.1 - mx) ^ 2)).sum
  let vy := (pairs.map (fun pr => (pr.2 - my) ^ 2)).sum
  cov * |cov| / (vx * vy)

/-- Modelled from the spec: `turnout_correlation` of the paired
districts, as the sign-preserving square of the Pearson correlation of
their turnout rates. -/
def turnoutCorrSq (paired : List (DistrictEntry π × DistrictEntry π)) : ℚ :=
  corrSq (paired.map (fun pr => (pr.1.turnout, pr.2.turnout)))

/-- Modelled from the spec: the battleground subset — the lowest quartile
of the paired districts by the first run's victory margin. -/
def battlegroundSet (paired : List (DistrictEntry π × DistrictEntry π)) :
    List (DistrictEntry π × DistrictEntry π) :=
  (paired.mergeSort (fun x y => decide (x.1.margin ≤ y.1.margin))).take
    (paired.length / 4)

/-- Modelled from the spec: `battleground_accuracy`, the winner-match
rate restricted to the lowest-quartile-margin shared districts. -/
def battlegroundAccuracy
    (paired : List (DistrictEntry π × DistrictEntry π)) : ℚ :=
  matchRateOf (battlegroundSet paired)

/-- Modelled from the spec: whether one side of the paired data puts the
coalition at or above the majority threshold. -/
def crossesMajority (coalition : π → Bool) (majority : Nat)
    (side : List (DistrictEntry π)) : Bool :=
  decide (majority ≤ side.countP (fun e => coalition e.winner))

/-- Modelled from the spec: `government_prediction_correct` — both runs
agree on which side crosses the majority threshold over the paired
districts. -/
def govPredictionCorrect (coalition : π → Bool) (majority : Nat)
    (paired : List (DistrictEntry π × DistrictEntry π)) : Bool :=
  crossesMajority coalition majority (paired.map Prod.fst) ==
    crossesMajority coalition majority (paired.map Prod.snd)

/-- Modelled from the spec: `turnout_diff`, the aggregate turnout
difference — the absolute difference of the mean turnout rates of the
two runs over the paired districts. -/
def turnoutGap (paired : List (DistrictEntry π × DistrictEntry π)) : ℚ :=
  |(paired.map (fun pr => pr.1.turnout)).sum / (paired.length : ℚ) -
    (paired.map (fun pr => pr.2.turnout)).sum / (paired.length : ℚ)|

end Comparison

/-- Per-party seat difference entry, embedded from the SeatDiff interface
in types/index.ts. -/
structure SeatDiff where
  a : Int
  b : Int
  diff : Int
  deriving DecidableEq, Repr

/-- Comparison report record, embedded field-for-field from the
ComparisonReport interface in types/index.ts: fields declared
`number | null` or `boolean | null` are Options, the rest are plain. -/
structure ComparisonReport where
  experiment_a : String
  experiment_b : String
  common_districts : Nat
  winner_match_rate : ℚ
  seat_mae : ℚ
  turnout_correlation : Option ℚ
  battleground_accuracy : Option ℚ
  turnout_diff : Option ℚ
  margin_correlation : Option ℚ
  government_prediction_correct : Option Bool

/-- The metric fields of the comparison report named by the spec's
error-handling contract. -/
inductive MetricField where
  | winner_match_rate
  | seat_mae
  | turnout_correlation
  | battleground_accuracy
  | turnout_diff
  | margin_correlation
  | government_prediction_correct
  deriving DecidableEq, Repr

/-- Nullability of each metric field as declared by the ComparisonReport
interface in types/index.ts (true when the declared type is
`number | null` or `boolean | null`, false when it is a plain number). -/
def metricNullable : MetricField → Bool
  | MetricField.winner_match_rate => false
  | MetricField.seat_mae => false
  | MetricField.turnout_correlation => true
  | MetricField.battleground_accuracy => true
  | MetricField.turnout_diff => true
  | MetricField.margin_correlation => true
  | MetricField.government_prediction_correct => true

/-- The six metrics the spec's null-on-insufficient-data contract
enumerates: winner-match rate, seat MAE, turnout correlation,
battleground accuracy, majority-prediction correctness, turnout
difference. -/
def contractMetrics : List MetricField :=
  [MetricField.winner_match_rate, MetricField.seat_mae,
   MetricField.turnout_correlation, MetricField.battleground_accuracy,
   MetricField.government_prediction_correct, MetricField.turnout_diff]

/-- JSON values, the payloads carried by the frontend API client. -/
inductive Json where
  | null
  | bool (b : Bool)
  | num (q : ℚ)
  | str (s : String)
  | arr (xs : List Json)
  | obj (fields : List (String × Json))

/-- An HTTP response as seen by fetchJSON: the ok flag, status code and
status text of the Response, and the value `res.json()` yields. -/
structure HttpResponse where
  ok : Bool
  status : Nat
  statusText : String
  body : Json

/-- Embedded from api-client.ts: `fetchJSON` returns the parsed JSON body
of an ok response and throws `API error: {status} {statusText}`
otherwise.  The network is the environment function from path to
response; a thrown Error is the `Except.error` case carrying the exact
message. -/
def fetchJSON (env : String → HttpResponse) (path : String) :
    Except String Json :=
  let r := env path
  if r.ok then Except.ok r.body
  else Except.error ("API error: " ++ toString r.status ++ " " ++ r.statusText)

/-- Embedded from api-client.ts. -/
def fetchPredictionSummary (env : String → HttpResponse) : Except String Json :=
  fetchJSON env "/predictions/summary"

/-- Embedded from api-client.ts. -/
def fetchLatestPredictions (env : String → HttpResponse) : Except String Json :=
  fetchJSON env "/predictions/latest"

/-- Embedded from api-client.ts. -/
def fetchDistrictPrediction (env : String → HttpResponse) (id : String) :
    Except String Json :=
  fetchJSON env ("/predictions/district/" ++ id)

/-- Embedded from api-client.ts. -/
def fetchDistrictHistory (env : String → HttpResponse) (id : String) :
    Except String Json :=
  fetchJSON env ("/predictions/district/" ++ id ++ "/history")

/-- Embedded from api-client.ts. -/
def fetchBattleground (env : String → HttpResponse) : Except String Json :=
  fetchJSON env "/predictions/battleground"

/-- Embedded from api-client.ts. -/
def fetchDistricts (env : String → HttpResponse) : Except String Json :=
  fetchJSON env "/districts"

/-- Embedded from api-client.ts. -/
def fetchDistrictDetail (env : String → HttpResponse) (id : String) :
    Except String Json :=
  fetchJSON env ("/districts/" ++ id)

/-- Embedded from api-client.ts. -/
def fetchProportionalBlocks (env : String → HttpResponse) : Except String Json :=
  fetchJSON env "/proportional/blocks"

/-- Embedded from api-client.ts. -/
def fetchPrompts (env : String → HttpResponse) : Except String Json :=
  fetchJSON env "/prompts"

/-- Embedded from api-client.ts. -/
def fetchYouTubeSummary (env : String → HttpResponse) : Except String Json :=
  fetchJSON env "/youtube/summary"

/-- Embedded from api-client.ts. -/
def fetchNewsSummary (env : String → HttpResponse) : Except String Json :=
  fetchJSON env "/news/summary"

/-- Embedded from api-client.ts. -/
def fetchModelComparison (env : String → HttpResponse) : Except String Json :=
  fetchJSON env "/news/model-comparison"

/-- Embedded from api-client.ts. -/
def fetchPersonaSummary (env : String → HttpResponse) : Except String Json :=
  fetchJSON env "/personas/summary"

/-- Embedded from api-client.ts. -/
def fetchMapSummary (env : String → HttpResponse) : Except String Json :=
  fetchJSON env "/districts/map-summary"

/-! ### Theorems -/

/-- C8: Tier-1 candidate scoring is the weighted sum of exactly the six
factors party loyalty, policy alignment, candidate appeal, media
influence, local connection and strategic voting, with default weights
0.30, 0.25, 0.20, 0.10, 0.10 and 0.05 summing to 1, plus an additive
noise term whose standard deviation is the swing-tendency class's
`noiseSigma` (0.05 for very_low up to 0.45 for very_high). -/
theorem six_factor_weighted_sum :
    (factorList.map defaultWeight).sum = 1 ∧
    factorList.length = 6 ∧ factorList.Nodup ∧
    defaultWeight Factor.party_loyalty = 30 / 100 ∧
    defaultWeight Factor.policy_alignment = 25 / 100 ∧
    defaultWeight Factor.candidate_appeal = 20 / 100 ∧
    defaultWeight Factor.media_influence = 10 / 100 ∧
    defaultWeight Factor.local_connection = 10 / 100 ∧
    defaultWeight Factor.strategic_voting = 5 / 100 ∧
    (∀ ctx w p c noise, candidateScore ctx w p c noise =
      (factorList.map (fun f => w f * factorScore ctx f p c)).sum + noise) ∧
    noiseSigma SwingTendency.veryLow = 5 / 100 ∧
    noiseSigma SwingTendency.low = 10 / 100 ∧
    noiseSigma SwingTendency.moderate = 20 / 100 ∧
    noiseSigma SwingTendency.moderateHigh = 25 / 100 ∧
    noiseSigma SwingTendency.high = 35 / 100 ∧
    noiseSigma SwingTendency.veryHigh = 45 / 100 := by
  refine ⟨?_, rfl, by decide, rfl, rfl, rfl, rfl, rfl, rfl,
    fun _ _ _ _ _ => rfl, rfl, rfl, rfl, rfl, rfl, rfl⟩
  simp only [factorList, List.map_cons, List.map_nil, List.sum_cons,
    List.sum_nil, defaultWeight]
  norm_num

/-- C9: tier routing is a total function of the swing-tendency class:
very_low and low resolve immediately through the deterministic Tier-1
argmax, the four remaining classes defer to the Tier-2 generative
delegate, and the six listed classes are the whole type. -/
theorem tier_routing_total :
    delegatesToLLM SwingTendency.veryLow = false ∧
    delegatesToLLM SwingTendency.low = false ∧
    delegatesToLLM SwingTendency.moderate = true ∧
    delegatesToLLM SwingTendency.moderateHigh = true ∧
    delegatesToLLM SwingTendency.high = true ∧
    delegatesToLLM SwingTendency.veryHigh = true ∧
    (∀ t : SwingTendency,
      t ∈ [SwingTendency.veryLow, SwingTendency.low, SwingTendency.moderate,
           SwingTendency.moderateHigh, SwingTendency.high,
           SwingTendency.veryHigh]) ∧
    (∀ ctx p cands, routePersona ctx p cands =
      if delegatesToLLM p.swing then DecisionRoute.tier2
      else DecisionRoute.tier1 (tier1Choice ctx p cands)) := by
  refine ⟨rfl, rfl, rfl, rfl, rfl, rfl, fun t => ?_, fun _ _ _ => rfl⟩
  cases t <;> simp

/-- C5 counterexample: the spec requires all six enumerated comparison
metrics to be nullable, but the ComparisonReport declaration types
winner_match_rate (and seat_mae) as a plain number, so the list of
contract metrics is not all-nullable. -/
theorem comparison_metrics_not_all_nullable :
    ¬ contractMetrics.all metricNullable = true := by decide

/-- C5 (amended): of the six metrics named by the contract, turnout
correlation, battleground accuracy, turnout difference and
majority-prediction correctness (and margin correlation) are declared
nullable and can report null on insufficient data, while winner-match
rate and seat MAE are declared as plain numbers and can never be null. -/
theorem comparison_metrics_nullability :
    metricNullable MetricField.turnout_correlation = true ∧
    metricNullable MetricField.battleground_accuracy = true ∧
    metricNullable MetricField.turnout_diff = true ∧
    metricNullable MetricField.margin_correlation = true ∧
    metricNullable MetricField.government_prediction_correct = true ∧
    metricNullable MetricField.winner_match_rate = false ∧
    metricNullable MetricField.seat_mae = false := by decide

/-- C10: fetchJSON yields the parsed JSON body exactly when the response
is ok, and otherwise the error whose message is exactly
`API error: {status} {statusText}`; a caller can only obtain a body of an
ok response, and every fetch helper of the API client is fetchJSON at its
path. -/
theorem fetchJSON_ok_or_error (env : String → HttpResponse) (path : String) :
    ((env path).ok = true → fetchJSON env path = Except.ok (env path).body) ∧
    ((env path).ok = false → fetchJSON env path = Except.error
      ("API error: " ++ toString (env path).status ++ " " ++
        (env path).statusText)) ∧
    (∀ v, fetchJSON env path = Except.ok v →
      (env path).ok = true ∧ v = (env path).body) ∧
    fetchPredictionSummary env = fetchJSON env "/predictions/summary" ∧
    fetchLatestPredictions env = fetchJSON env "/predictions/latest" ∧
    (∀ id, fetchDistrictPrediction env id =
      fetchJSON env ("/predictions/district/" ++ id)) ∧
    (∀ id, fetchDistrictHistory env id =
      fetchJSON env ("/predictions/district/" ++ id ++ "/history")) ∧
    fetchBattleground env = fetchJSON env "/predictions/battleground" ∧
    fetchDistricts env = fetchJSON env "/districts" ∧
    (∀ id, fetchDistrictDetail env id = fetchJSON env ("/districts/" ++ id)) ∧
    fetchProportionalBlocks env = fetchJSON env "/proportional/blocks" ∧
    fetchPrompts env = fetchJSON env "/prompts" ∧
    fetchYouTubeSummary env = fetchJSON env "/youtube/summary" ∧
    fetchNewsSummary env = fetchJSON env "/news/summary" ∧
    fetchModelComparison env = fetchJSON env "/news/model-comparison" ∧
    fetchPersonaSummary env = fetchJSON env "/personas/summary" ∧
    fetchMapSummary env = fetchJSON env "/districts/map-summary" := by
  refine ⟨?_, ?_, ?_, rfl, rfl, fun _ => rfl, fun _ => rfl, rfl, rfl,
    fun _ => rfl, rfl, rfl, rfl, rfl, rfl, rfl, rfl⟩
  · intro h; simp [fetchJSON, h]
  · intro h; simp [fetchJSON, h]
  · intro v hv
    by_cases h : (env path).ok
    · simp only [fetchJSON, if_pos h, Except.ok.injEq] at hv
      exact ⟨h, hv.symm⟩
    · simp [fetchJSON, if_neg h] at hv

/-- A concrete network environment: one ok endpoint, everything else a
404. -/
def envEx : String → HttpResponse := fun p =>
  if p = "/districts" then ⟨true, 200, "OK", Json.arr []⟩
  else ⟨false, 404, "Not Found", Json.null⟩

/-- Witness for C10 at a concrete environment: the 404 path produces
exactly the `API error: 404 Not Found` message, and fetchDistricts
returns the ok body. -/
theorem fetchJSON_ok_or_error_witness :
    fetchJSON envEx "/missing" = Except.error "API error: 404 Not Found" ∧
    fetchDistricts envEx = Except.ok (Json.arr []) := by
  constructor
  · exact (fetchJSON_ok_or_error envEx "/missing").2.1 rfl
  · exact (fetchJSON_ok_or_error envEx "/districts").1 rfl

theorem pickWinner_le (votes : Nat → Nat) :
    ∀ (cs : List Nat) (w : Nat),
      votes w ≤ votes (pickWinner votes w cs) ∧
      ∀ c ∈ cs, votes c ≤ votes (pickWinner votes w cs) := by
  intro cs
  induction cs with
  | nil => exact fun w => ⟨le_rfl, fun c hc => absurd hc (List.not_mem_nil c)⟩
  | cons c cs ih =>
    intro w
    rw [pickWinner]
    by_cases hb : beats votes c w = true
    · rw [if_pos hb]
      have hb' : votes w < votes c ∨ (votes c = votes w ∧ c < w) := by
        simpa [beats, Bool.or_eq_true, Bool.and_eq_true, decide_eq_true_eq,
          beq_iff_eq] using hb
      have hwc : votes w ≤ votes c := by
        rcases hb' with h1 | ⟨h2, _⟩
        · exact le_of_lt h1
        · exact le_of_eq h2.symm
      refine ⟨le_trans hwc (ih c).1, fun d hd => ?_⟩
      rcases List.mem_cons.mp hd with h' | hd'
      · rw [h']; exact (ih c).1
      · exact (ih c).2 d hd'
    · rw [if_neg hb]
      have hcw : votes c ≤ votes w := by
        by_contra hlt
        exact hb (by simp [beats, Nat.lt_of_not_le hlt])
      refine ⟨(ih w).1, fun d hd => ?_⟩
      rcases List.mem_cons.mp hd with h' | hd'
      · rw [h']; exact le_trans hcw (ih w).1
      · exact (ih w).2 d hd'

theorem foldr_max_le {l : List Nat} {M : Nat} (h : ∀ x ∈ l, x ≤ M) :
    l.foldr max 0 ≤ M := by
  induction l with
  | nil => exact Nat.zero_le M
  | cons a l ih =>
    exact max_le (h a (List.mem_cons_self a l))
      (ih fun x hx => h x (List.mem_cons_of_mem a hx))

/-- C2: for every district aggregation, the winner's vote count is at
least every candidate's vote count; in particular it is at least the
runner-up's, so the recorded margin is non-negative. -/
theorem winner_validity (cands : List Nat) (ds : List VoteDecision)
    (hne : cands ≠ []) :
    (∀ c ∈ cands, votesFor ds c ≤ (aggregateDistrict cands ds).winner_votes) ∧
    (aggregateDistrict cands ds).runner_up_votes ≤
      (aggregateDistrict cands ds).winner_votes ∧
    0 ≤ (aggregateDistrict cands ds).margin := by
  obtain ⟨c0, cs, rfl⟩ := List.exists_cons_of_ne_nil hne
  have hmax : ∀ c ∈ c0 :: cs,
      votesFor ds c ≤ votesFor ds (districtWinner (votesFor ds) (c0 :: cs)) := by
    intro c hc
    rcases List.mem_cons.mp hc with rfl | hc'
    · exact (pickWinner_le (votesFor ds) cs c).1
    · exact (pickWinner_le (votesFor ds) cs c0).2 c hc'
  have hru : runnerUpVotes (votesFor ds) (c0 :: cs) ≤
      votesFor ds (districtWinner (votesFor ds) (c0 :: cs)) := by
    apply foldr_max_le
    intro x hx
    obtain ⟨c, hc, rfl⟩ := List.mem_map.mp hx
    exact hmax c (List.mem_of_mem_filter hc)
  refine ⟨hmax, hru, ?_⟩
  simpa [aggregateDistrict] using Int.sub_nonneg.mpr (Int.ofNat_le.mpr hru)

/-- An explicit decision list: three personas turn out (two choose
candidate 1, one chooses candidate 2) and one abstains. -/
def dsEx : List VoteDecision :=
  [⟨true, 1, "ldp"⟩, ⟨true, 2, "chudo"⟩, ⟨false, 1, "ldp"⟩, ⟨true, 1, "ldp"⟩]

/-- Witness for C2 at a concrete district: candidate 2's votes are at
most the winner's and the margin is non-negative. -/
theorem winner_validity_witness :
    votesFor dsEx 2 ≤ (aggregateDistrict [1, 2] dsEx).winner_votes ∧
    0 ≤ (aggregateDistrict [1, 2] dsEx).margin := by
  have h := winner_validity [1, 2] dsEx (by decide)
  exact ⟨h.1 2 (by decide), h.2.2⟩

theorem sum_map_add_nat {α : Type} (l : List α) (f g : α → Nat) :
    (l.map (fun x => f x + g x)).sum = (l.map f).sum + (l.map g).sum := by
  induction l with
  | nil => simp
  | cons a l ih => simp only [List.map_cons, List.sum_cons, ih]; omega

theorem sum_indicator_one {cands : List Nat} (hnd : cands.Nodup) {a : Nat}
    (ha : a ∈ cands) :
    (cands.map (fun c => if a = c then (1 : Nat) else 0)).sum = 1 := by
  induction cands with
  | nil => cases ha
  | cons b bs ih =>
    rcases List.mem_cons.mp ha with rfl | hmem
    · have hz : (bs.map (fun c => if a = c then (1 : Nat) else 0)).sum = 0 := by
        apply List.sum_eq_zero
        intro x hx
        obtain ⟨c, hc, rfl⟩ := List.mem_map.mp hx
        refine if_neg (fun h => (List.nodup_cons.mp hnd).1 ?_)
        rw [h]; exact hc
      rw [List.map_cons, List.sum_cons, hz, if_pos rfl]
    · have hb : ¬ a = b := by
        intro h
        exact (List.nodup_cons.mp hnd).1 (by rw [← h]; exact hmem)
      rw [List.map_cons, List.sum_cons, if_neg hb,
        ih (List.nodup_cons.mp hnd).2 hmem]

theorem sum_counts_eq_length {cands : List Nat} (hnd : cands.Nodup) :
    ∀ l : List Nat, (∀ x ∈ l, x ∈ cands) →
      (cands.map l.count).sum = l.length := by
  intro l
  induction l with
  | nil => intro _; simp
  | cons a l ih =>
    intro hsub
    have hmem : a ∈ cands := hsub a (List.mem_cons_self a l)
    have hl : ∀ x ∈ l, x ∈ cands :=
      fun x hx => hsub x (List.mem_cons_of_mem a hx)
    have hmap : cands.map (a :: l).count =
        cands.map (fun c => l.count c + if a = c then 1 else 0) := by
      apply List.map_congr_left
      intro c _
      by_cases h : a = c
      · subst h; simp [List.count_cons_self]
      · rw [List.count_cons_of_ne (fun hh => h hh.symm), if_neg h,
          Nat.add_zero]
    rw [hmap, sum_map_add_nat, ih hl, sum_indicator_one hnd hmem,
      List.length_cons]

theorem argmaxFrom_mem (f : α → ℚ) :
    ∀ (cs : List α) (w : α), argmaxFrom f w cs ∈ w :: cs := by
  intro cs
  induction cs with
  | nil => intro w; simp [argmaxFrom]
  | cons c cs ih =>
    intro w
    rw [argmaxFrom]
    by_cases h : f w < f c
    · rw [if_pos h]
      exact List.mem_cons_of_mem w (ih c)
    · rw [if_neg h]
      rcases List.mem_cons.mp (ih w) with h' | h'
      · exact List.mem_cons.mpr (Or.inl h')
      · exact List.mem_cons_of_mem w (List.mem_cons_of_mem c h')

theorem sum_update_add_one {l : List String} (hnd : l.Nodup) {w : String}
    (hw : w ∈ l) (a : String → Nat) :
    (l.map (fun q => if q = w then a q + 1 else a q)).sum
      = (l.map a).sum + 1 := by
  induction l with
  | nil => cases hw
  | cons b bs ih =>
    rcases List.mem_cons.mp hw with rfl | hmem
    · have hbs : bs.map (fun q => if q = w then a q + 1 else a q) =
          bs.map a := by
        apply List.map_congr_left
        intro q hq
        refine if_neg (fun h => (List.nodup_cons.mp hnd).1 ?_)
        rw [← h]; exact hq
      rw [List.map_cons, List.map_cons, List.sum_cons, List.sum_cons, hbs,
        if_pos rfl]
      omega
    · have hb : ¬ b = w := by
        intro h
        exact (List.nodup_cons.mp hnd).1 (by rw [h]; exact hmem)
      rw [List.map_cons, List.map_cons, List.sum_cons, List.sum_cons,
        if_neg hb, ih (List.nodup_cons.mp hnd).2 hmem]
      omega

theorem dhondt_total_seats (p : String) (ps : List String)
    (votes : String → Nat) (hnd : (p :: ps).Nodup) :
    ∀ n, ((p :: ps).map (dhondtAlloc (p :: ps) votes n)).sum = n := by
  intro n
  induction n with
  | zero => simp [dhondtAlloc]
  | succ n ih =>
    have hw := argmaxFrom_mem
      (quotaScore votes (dhondtAlloc (p :: ps) votes n)) ps p
    calc ((p :: ps).map (dhondtAlloc (p :: ps) votes (n + 1))).sum
        = ((p :: ps).map (fun q =>
            if q = argmaxFrom (quotaScore votes (dhondtAlloc (p :: ps) votes n))
                p ps
            then dhondtAlloc (p :: ps) votes n q + 1
            else dhondtAlloc (p :: ps) votes n q)).sum := rfl
      _ = ((p :: ps).map (dhondtAlloc (p :: ps) votes n)).sum + 1 :=
            sum_update_add_one hnd hw _
      _ = n + 1 := by rw [ih]

/-- C1: conservation — the per-candidate vote totals of a district
aggregation sum to its turnout count, and the D'Hondt allocation of a
proportional block distributes exactly the block's configured seat
count. -/
theorem conservation (cands : List Nat) (ds : List VoteDecision)
    (hnd : cands.Nodup)
    (hv : ∀ d ∈ ds, d.voted = true → d.smdChoice ∈ cands)
    (parties : List String) (votes : String → Nat) (seats : Nat)
    (hpne : parties ≠ []) (hpnd : parties.Nodup) :
    (cands.map (votesFor ds)).sum = (aggregateDistrict cands ds).turnout_count ∧
    (parties.map (dhondtAlloc parties votes seats)).sum = seats := by
  constructor
  · have hsub : ∀ x ∈ votedChoices ds, x ∈ cands := by
      intro x hx
      obtain ⟨d, hd, rfl⟩ := List.mem_map.mp hx
      exact hv d (List.mem_of_mem_filter hd)
        (by simpa using List.of_mem_filter hd)
    have h := sum_counts_eq_length hnd (votedChoices ds) hsub
    have hlen : (votedChoices ds).length = turnoutCount ds := by
      simp [votedChoices, turnoutCount]
    calc (cands.map (votesFor ds)).sum
        = (cands.map (votedChoices ds).count).sum := rfl
      _ = (votedChoices ds).length := h
      _ = (aggregateDistrict cands ds).turnout_count := hlen
  · obtain ⟨p, ps, rfl⟩ := List.exists_cons_of_ne_nil hpne
    exact dhondt_total_seats p ps votes hpnd seats

/-- Spec example scenario 2's vote totals: A 1000, B 600, C 300. -/
def votesEx : String → Nat := fun p =>
  if p = "A" then 1000 else if p = "B" then 600
  else if p = "C" then 300 else 0

/-- Witness for C1 at a concrete district and a concrete 5-seat block. -/
theorem conservation_witness :
    (([1, 2].map (votesFor dsEx)).sum =
      (aggregateDistrict [1, 2] dsEx).turnout_count) ∧
    ((["A", "B", "C"].map (dhondtAlloc ["A", "B", "C"] votesEx 5)).sum = 5) :=
  conservation [1, 2] dsEx (by decide) (by decide)
    ["A", "B", "C"] votesEx 5 (by decide) (by decide)

theorem flatten_map_map {α β : Type} (f : α → β) :
    ∀ qs : List (List α), (qs.map (List.map f)).flatten = qs.flatten.map f := by
  intro qs
  induction qs with
  | nil => rfl
  | cons q qs ih =>
    rw [List.map_cons, List.flatten_cons, List.flatten_cons, List.map_append,
      ih]

theorem lookup_keyed {β : Type} (f : String → β) :
    ∀ (ids : List String) (d : String),
      List.lookup d (ids.map (fun i => (i, f i))) =
        if d ∈ ids then some (f d) else none := by
  intro ids
  induction ids with
  | nil => intro d; simp
  | cons i ids ih =>
    intro d
    by_cases h : d = i
    · rw [List.map_cons, h, List.lookup, beq_self_eq_true,
        if_pos (List.mem_cons_self i ids)]
    · have hb : (d == i) = false := beq_eq_false_iff_ne.mpr h
      rw [List.map_cons, List.lookup, hb, ih d]
      by_cases hm : d ∈ ids
      · rw [if_pos hm, if_pos (List.mem_cons_of_mem i hm)]
      · refine (if_neg hm).trans (if_neg (fun hc => hm ?_)).symm
        rcases List.mem_cons.mp hc with h' | h'
        · exact absurd h' h
        · exact h'

/-- C3: scheduling invariance of the run — for any two worker-pool
schedules covering the same districts (pool size 1 is one queue, pool
size 8 is eight), every district's result (its generated persona
population together with its Tier-1 decisions) is identical, and equals
the pure district computation seeded from the global seed and the
district identifier. -/
theorem determinism_schedule_invariant (ctx : ScoringContext)
    (seed count : Nat) (cands : List Candidate)
    (q1 q2 : List (List String)) (hperm : q1.flatten.Perm q2.flatten) :
    (∀ d, runResult (runPool ctx seed count cands q1) d =
          runResult (runPool ctx seed count cands q2) d) ∧
    (∀ d ∈ q1.flatten,
      runResult (runPool ctx seed count cands q1) d =
        some (simulateDistrict ctx seed count cands d)) := by
  have hres : ∀ (qs : List (List String)) (d : String),
      runResult (runPool ctx seed count cands qs) d =
        if d ∈ qs.flatten then some (simulateDistrict ctx seed count cands d)
        else none := by
    intro qs d
    have hrun : runPool ctx seed count cands qs = qs.flatten.map
        (fun i => (i, simulateDistrict ctx seed count cands i)) := by
      unfold runPool runWorker
      exact flatten_map_map _ qs
    rw [runResult, hrun]
    exact lookup_keyed _ qs.flatten d
  constructor
  · intro d
    rw [hres q1, hres q2]
    by_cases h : d ∈ q1.flatten
    · rw [if_pos h, if_pos (hperm.mem_iff.mp h)]
    · rw [if_neg h, if_neg (fun hc => h (hperm.mem_iff.mpr hc))]
  · intro d hd
    rw [hres q1, if_pos hd]

/-- A concrete scoring context with computable tables. -/
def ctxEx : ScoringContext :=
  ⟨fun a pa => (((a + pa.length) % 10 : Nat) : ℚ) / 10,
   fun pa => ((pa.length % 5 : Nat) : ℚ) / 10⟩

/-- A concrete two-candidate roster. -/
def candsEx : List Candidate :=
  [⟨1, "ldp", true, 3, false⟩, ⟨2, "chudo", false, 0, true⟩]

/-- Witness for C3: a sequential pool-size-1 schedule (one queue) and a
pool-size-8 schedule (eight queues, the districts split across the first
two) give district 13_1 the same result, namely the pure per-district
computation. -/
theorem determinism_schedule_invariant_witness :
    runResult (runPool ctxEx 42 2 candsEx [["13_1", "27_1"]]) "13_1" =
      runResult (runPool ctxEx 42 2 candsEx
        [["27_1"], ["13_1"], [], [], [], [], [], []]) "13_1" ∧
    runResult (runPool ctxEx 42 2 candsEx [["13_1", "27_1"]]) "13_1" =
      some (simulateDistrict ctxEx 42 2 candsEx "13_1") := by
  have h := determinism_schedule_invariant ctxEx 42 2 candsEx
    [["13_1", "27_1"]] [["27_1"], ["13_1"], [], [], [], [], [], []]
    (List.Perm.swap "27_1" "13_1" [])
  exact ⟨h.1 "13_1", h.2 "13_1" (by decide)⟩

theorem sum_map_sub_rat (l : List String) (f g : String → ℚ) :
    (l.map (fun p => f p - g p)).sum = (l.map f).sum - (l.map g).sum := by
  induction l with
  | nil => simp
  | cons a l ih =>
    rw [List.map_cons, List.map_cons, List.map_cons, List.sum_cons,
      List.sum_cons, List.sum_cons, ih]
    ring

theorem max_sub_max_neg (x : ℚ) : max x 0 - max (-x) 0 = x := by
  rcases le_total x 0 with h | h
  · rw [max_eq_right h, max_eq_left (by linarith)]
    ring
  · rw [max_eq_left h, max_eq_right (by linarith)]
    ring

theorem totalOver_sub_totalUnder (ps : List String) (cur tgt : String → ℚ) :
    totalOver ps cur tgt - totalUnder ps cur tgt =
      (ps.map cur).sum - (ps.map tgt).sum := by
  unfold totalOver totalUnder
  rw [← sum_map_sub_rat, ← sum_map_sub_rat]
  apply congrArg List.sum
  apply List.map_congr_left
  intro p _
  have := max_sub_max_neg (cur p - tgt p)
  rw [neg_sub] at this
  rw [this]

theorem totalUnder_pos_of_mem {ps : List String} {cur tgt : String → ℚ}
    {p : String} (hp : p ∈ ps) (h : cur p < tgt p) :
    0 < totalUnder ps cur tgt := by
  have hnn : ∀ x ∈ ps.map (fun q => max (tgt q - cur q) 0), 0 ≤ x := by
    intro x hx
    obtain ⟨q, _, rfl⟩ := List.mem_map.mp hx
    exact le_max_right _ _
  have hle : max (tgt p - cur p) 0 ≤
      (ps.map (fun q => max (tgt q - cur q) 0)).sum :=
    List.single_le_sum hnn _ (List.mem_map_of_mem _ hp)
  calc (0 : ℚ) < tgt p - cur p := sub_pos.mpr h
    _ ≤ max (tgt p - cur p) 0 := le_max_left _ _
    _ ≤ totalUnder ps cur tgt := hle

theorem calibratedShare_eq_lerp {ps : List String} {cur tgt : String → ℚ}
    (hsum : (ps.map cur).sum = (ps.map tgt).sum) (s : ℚ) {p : String}
    (hp : p ∈ ps) :
    calibratedShare ps cur tgt s p = cur p + s * (tgt p - cur p) := by
  unfold calibratedShare
  rcases lt_trichotomy (tgt p) (cur p) with h | h | h
  · rw [if_pos h]; ring
  · rw [if_neg (by rw [h]; exact lt_irrefl _),
      if_neg (by rw [h]; exact lt_irrefl _), h]
    ring
  · have hU : 0 < totalUnder ps cur tgt := totalUnder_pos_of_mem hp h
    have hEU : totalOver ps cur tgt = totalUnder ps cur tgt := by
      have hd := totalOver_sub_totalUnder ps cur tgt
      rw [hsum, sub_self] at hd
      linarith
    rw [if_neg (not_lt.mpr (le_of_lt h)), if_pos h, hEU]
    field_simp
    ring

theorem l1_calibrated {ps : List String} {cur tgt : String → ℚ}
    (hsum : (ps.map cur).sum = (ps.map tgt).sum) {s : ℚ}
    (h1 : s ≤ 1) :
    l1Distance ps (calibratedShare ps cur tgt s) tgt =
      (1 - s) * l1Distance ps cur tgt := by
  unfold l1Distance
  rw [← List.sum_map_mul_left]
  apply congrArg List.sum
  apply List.map_congr_left
  intro p hp
  rw [calibratedShare_eq_lerp hsum s hp]
  have hx : cur p + s * (tgt p - cur p) - tgt p =
      (1 - s) * (cur p - tgt p) := by ring
  rw [hx, abs_mul, abs_of_nonneg (by linarith : (0 : ℚ) ≤ 1 - s)]

theorem l1Distance_nonneg (ps : List String) (a b : String → ℚ) :
    0 ≤ l1Distance ps a b := by
  apply List.sum_nonneg
  intro x hx
  obtain ⟨p, _, rfl⟩ := List.mem_map.mp hx
  exact abs_nonneg _

/-- C4: calibration endpoints and monotonicity — holding the
pre-calibration shares fixed, strength 0 leaves every party share
unchanged and strength 1 reproduces the target exactly; the L1 distance
to the target equals (1 - s) times the initial distance, so it decreases
monotonically as the strength grows from 0 to 1. -/
theorem calibration_monotone (ps : List String) (cur tgt : String → ℚ)
    (hsum : (ps.map cur).sum = (ps.map tgt).sum) :
    (∀ p ∈ ps, calibratedShare ps cur tgt 0 p = cur p) ∧
    (∀ p ∈ ps, calibratedShare ps cur tgt 1 p = tgt p) ∧
    (∀ s : ℚ, s ≤ 1 →
      l1Distance ps (calibratedShare ps cur tgt s) tgt =
        (1 - s) * l1Distance ps cur tgt) ∧
    (∀ s₁ s₂ : ℚ, s₁ ≤ s₂ → s₂ ≤ 1 →
      l1Distance ps (calibratedShare ps cur tgt s₂) tgt ≤
        l1Distance ps (calibratedShare ps cur tgt s₁) tgt) := by
  refine ⟨?_, ?_, ?_, ?_⟩
  · intro p hp
    rw [calibratedShare_eq_lerp hsum 0 hp]
    ring
  · intro p hp
    rw [calibratedShare_eq_lerp hsum 1 hp]
    ring
  · intro s h1
    exact l1_calibrated hsum h1
  · intro s₁ s₂ h12 h21
    rw [l1_calibrated hsum h21, l1_calibrated hsum (le_trans h12 h21)]
    apply mul_le_mul_of_nonneg_right (by linarith) (l1Distance_nonneg ps cur tgt)

/-- Example scenario 3's shares: party x holds 45 percent against a
30 percent target, party y the remainder. -/
def curEx : String → ℚ := fun p => if p = "x" then 45 / 100 else 55 / 100

/-- Example scenario 3's target distribution. -/
def tgtEx : String → ℚ := fun p => if p = "x" then 30 / 100 else 70 / 100

/-- Witness for C4 at the concrete two-party instance of example
scenario 3: at strength 0.3 the distance to target is 0.7 times the
initial distance. -/
theorem calibration_monotone_witness :
    l1Distance ["x", "y"] (calibratedShare ["x", "y"] curEx tgtEx (3 / 10))
        tgtEx =
      (1 - 3 / 10) * l1Distance ["x", "y"] curEx tgtEx := by
  have h := calibration_monotone ["x", "y"] curEx tgtEx
    (by simp [curEx, tgtEx]; norm_num)
  exact h.2.2.1 (3 / 10) (by norm_num)

/-- C7: the validator is a total function producing, for every completed
run's results, a structured report whose checks are exactly the fixed
seven-check battery in order, each an independent name/passed/detail
record; failures are collected into the aggregate warnings and errors
lists instead of aborting, and the overall passed boolean holds exactly
when no hard (aggregation-invariant) check failed. -/
theorem validator_fixed_battery (cfg : ValidatorConfig)
    (rs : List DistrictFacts) :
    ((validate cfg rs).checks.map (fun c => c.name) = checkNames) ∧
    (validate cfg rs).checks.length = 7 ∧
    (∀ c ∈ (validate cfg rs).checks,
      c.passed = true ∨ c.passed = false) ∧
    (validate cfg rs).passed = (validate cfg rs).errors.isEmpty ∧
    (validate cfg rs).passed =
      (rs.all (checkPassed cfg 2) && rs.all (checkPassed cfg 3) &&
        rs.all (checkPassed cfg 4)) := by
  refine ⟨rfl, rfl, fun c _ => Bool.eq_false_or_eq_true c.passed, rfl, ?_⟩
  cases hb2 : rs.all (checkPassed cfg 2) <;>
    cases hb3 : rs.all (checkPassed cfg 3) <;>
      cases hb4 : rs.all (checkPassed cfg 4) <;>
        simp [validate, checkIndices, hardCheck, hb2, hb3, hb4]

/-- A concrete validator configuration: 100 personas, 5 to 60 percent
turnout band. -/
def cfgEx : ValidatorConfig := ⟨100, 5 / 100, 60 / 100⟩

/-- Concrete aggregate facts of one district. -/
def factsEx : DistrictFacts := ⟨"13_1", 100, 50, [30, 20], 30, 20, 45⟩

/-- Witness for C7 at a concrete run: the report's battery is the fixed
name list and the overall boolean matches the errors list. -/
theorem validator_fixed_battery_witness :
    ((validate cfgEx [factsEx]).checks.map (fun c => c.name) = checkNames) ∧
    (validate cfgEx [factsEx]).passed =
      (validate cfgEx [factsEx]).errors.isEmpty := by
  have h := validator_fixed_battery cfgEx [factsEx]
  exact ⟨h.1, h.2.2.2.1⟩

theorem countP_congr_mem {α : Type} {l : List α} {p q : α → Bool}
    (h : ∀ i ∈ l, p i = q i) : l.countP p = l.countP q := by
  induction l with
  | nil => rfl
  | cons a l ih =>
    rw [List.countP_cons, List.countP_cons, h a (List.mem_cons_self a l),
      ih (fun i hi => h i (List.mem_cons_of_mem a hi))]

theorem filter_congr_mem {α : Type} {l : List α} {p q : α → Bool}
    (h : ∀ i ∈ l, p i = q i) : l.filter p = l.filter q := by
  induction l with
  | nil => rfl
  | cons a l ih =>
    rw [List.filter_cons, List.filter_cons, h a (List.mem_cons_self a l),
      ih (fun i hi => h i (List.mem_cons_of_mem a hi))]

section ComparisonLemmas

variable {ι π : Type} [DecidableEq ι] [DecidableEq π]

theorem lookupWinner_append_left {l₁ l₂ : List (ι × π)} {i : ι}
    (h : i ∈ l₁.map Prod.fst) :
    lookupWinner i (l₁ ++ l₂) = lookupWinner i l₁ := by
  induction l₁ with
  | nil => simp at h
  | cons x xs ih =>
    obtain ⟨k, v⟩ := x
    have h' : i = k ∨ i ∈ xs.map Prod.fst := by
      rw [List.map_cons] at h
      exact List.mem_cons.mp h
    rw [List.cons_append, lookupWinner, lookupWinner]
    by_cases hk : i = k
    · rw [if_pos hk, if_pos hk]
    · rw [if_neg hk, if_neg hk]
      rcases h' with h' | h'
      · exact absurd h' hk
      · exact ih h'

theorem mem_commonIds_left {a b : List (ι × π)} {i : ι}
    (h : i ∈ commonIds a b) : i ∈ a.map Prod.fst :=
  (List.mem_filter.mp h).1

theorem mem_commonIds_right {a b : List (ι × π)} {i : ι}
    (h : i ∈ commonIds a b) : i ∈ b.map Prod.fst :=
  of_decide_eq_true (List.mem_filter.mp h).2

theorem commonIds_append_left (a b ea : List (ι × π))
    (hex : ∀ i ∈ ea.map Prod.fst, i ∉ b.map Prod.fst) :
    commonIds (a ++ ea) b = commonIds a b := by
  unfold commonIds
  rw [List.map_append, List.filter_append]
  have hnil : (ea.map Prod.fst).filter
      (fun i => decide (i ∈ b.map Prod.fst)) = [] :=
    List.filter_eq_nil_iff.mpr
      (fun i hi => by simpa using hex i hi)
  rw [hnil, List.append_nil]

theorem commonIds_append_right (a b eb : List (ι × π))
    (hex : ∀ i ∈ eb.map Prod.fst, i ∉ a.map Prod.fst) :
    commonIds a (b ++ eb) = commonIds a b := by
  unfold commonIds
  apply filter_congr_mem
  intro i hi
  have hni : i ∉ eb.map Prod.fst := fun hc => hex i hc hi
  apply decide_eq_decide.mpr
  rw [List.map_append, List.mem_append]
  exact ⟨fun h => h.resolve_right hni, Or.inl⟩

theorem filterMap_congr_mem {α β : Type} {l : List α} {f g : α → Option β}
    (h : ∀ i ∈ l, f i = g i) : l.filterMap f = l.filterMap g := by
  induction l with
  | nil => rfl
  | cons a l ih =>
    rw [List.filterMap_cons, List.filterMap_cons, h a (List.mem_cons_self a l),
      ih (fun i hi => h i (List.mem_cons_of_mem a hi))]

theorem pairedOf_append_left (a b ea : List (ι × π))
    (hex : ∀ i ∈ ea.map Prod.fst, i ∉ b.map Prod.fst) :
    pairedOf (a ++ ea) b = pairedOf a b := by
  unfold pairedOf
  rw [commonIds_append_left a b ea hex]
  apply filterMap_congr_mem
  intro i hi
  rw [lookupWinner_append_left (mem_commonIds_left hi)]

theorem pairedOf_append_right (a b eb : List (ι × π))
    (hex : ∀ i ∈ eb.map Prod.fst, i ∉ a.map Prod.fst) :
    pairedOf a (b ++ eb) = pairedOf a b := by
  unfold pairedOf
  rw [commonIds_append_right a b eb hex]
  apply filterMap_congr_mem
  intro i hi
  simp only [lookupWinner_append_left (mem_commonIds_right hi)]

end ComparisonLemmas

/-- The district entry every district of the concrete scenario carries. -/
def entryEx : DistrictEntry String := ⟨"ldp", 1 / 2, 1 / 10⟩

/-- Run A of the concrete comparison scenario: 289 districts. -/
def runAEx : List (Nat × DistrictEntry String) :=
  (List.range 289).map (fun n => (n, entryEx))

/-- Run B of the concrete comparison scenario: 280 of run A's 289
districts. -/
def runBEx : List (Nat × DistrictEntry String) :=
  (List.range 280).map (fun n => (n, entryEx))

set_option maxRecDepth 8000 in
set_option maxHeartbeats 8000000 in
/-- C6: districts present in only one compared run are excluded from all
comparison metrics — appending one-sided districts to either run changes
neither common_districts nor the paired shared-district data, and hence
none of winner_match_rate, seat_mae, turnout_correlation,
battleground_accuracy, government_prediction_correct or turnout_diff,
each of which is computed from that paired data — and the engine reports
the shared-district count: on the concrete scenario of two runs sharing
280 of 289 districts, common_districts is exactly 280 and the match rate
is computed over those 280 districts. -/
theorem comparison_excludes_unshared {ι π : Type} [DecidableEq ι]
    [DecidableEq π] (a b ea eb : List (ι × DistrictEntry π))
    (parties : List π) (coalition : π → Bool) (majority : Nat)
    (hea : ∀ i ∈ ea.map Prod.fst, i ∉ b.map Prod.fst)
    (heb : ∀ i ∈ eb.map Prod.fst, i ∉ a.map Prod.fst) :
    (commonDistricts (a ++ ea) b = commonDistricts a b ∧
     commonDistricts a (b ++ eb) = commonDistricts a b) ∧
    (pairedOf (a ++ ea) b = pairedOf a b ∧
     pairedOf a (b ++ eb) = pairedOf a b) ∧
    (matchRateOf (pairedOf (a ++ ea) b) = matchRateOf (pairedOf a b) ∧
     matchRateOf (pairedOf a (b ++ eb)) = matchRateOf (pairedOf a b)) ∧
    (seatMae parties (pairedOf (a ++ ea) b) =
       seatMae parties (pairedOf a b) ∧
     seatMae parties (pairedOf a (b ++ eb)) =
       seatMae parties (pairedOf a b)) ∧
    (turnoutCorrSq (pairedOf (a ++ ea) b) = turnoutCorrSq (pairedOf a b) ∧
     turnoutCorrSq (pairedOf a (b ++ eb)) = turnoutCorrSq (pairedOf a b)) ∧
    (battlegroundAccuracy (pairedOf (a ++ ea) b) =
       battlegroundAccuracy (pairedOf a b) ∧
     battlegroundAccuracy (pairedOf a (b ++ eb)) =
       battlegroundAccuracy (pairedOf a b)) ∧
    (govPredictionCorrect coalition majority (pairedOf (a ++ ea) b) =
       govPredictionCorrect coalition majority (pairedOf a b) ∧
     govPredictionCorrect coalition majority (pairedOf a (b ++ eb)) =
       govPredictionCorrect coalition majority (pairedOf a b)) ∧
    (turnoutGap (pairedOf (a ++ ea) b) = turnoutGap (pairedOf a b) ∧
     turnoutGap (pairedOf a (b ++ eb)) = turnoutGap (pairedOf a b)) ∧
    (commonDistricts runAEx runBEx = 280 ∧ runAEx.length = 289 ∧
     matchRateOf (pairedOf runAEx runBEx) = 1) := by
  have hc1 : commonDistricts (a ++ ea) b = commonDistricts a b := by
    unfold commonDistricts
    rw [commonIds_append_left a b ea hea]
  have hc2 : commonDistricts a (b ++ eb) = commonDistricts a b := by
    unfold commonDistricts
    rw [commonIds_append_right a b eb heb]
  have hL : pairedOf (a ++ ea) b = pairedOf a b :=
    pairedOf_append_left a b ea hea
  have hR : pairedOf a (b ++ eb) = pairedOf a b :=
    pairedOf_append_right a b eb heb
  refine ⟨⟨hc1, hc2⟩, ⟨hL, hR⟩, ⟨by rw [hL], by rw [hR]⟩,
    ⟨by rw [hL], by rw [hR]⟩, ⟨by rw [hL], by rw [hR]⟩,
    ⟨by rw [hL], by rw [hR]⟩, ⟨by rw [hL], by rw [hR]⟩,
    ⟨by rw [hL], by rw [hR]⟩, ?_, ?_, ?_⟩
  · decide
  · decide
  · have hm : (pairedOf runAEx runBEx).countP
        (fun pr => decide (pr.1.winner = pr.2.winner)) = 280 := by decide
    have hl : (pairedOf runAEx runBEx).length = 280 := by decide
    unfold matchRateOf
    rw [hm, hl]
    norm_num

/-- Witness for C6: appending a district present in only one side leaves
common_districts, the paired data, and each derived metric (here
seat_mae and turnout_diff shown) unchanged, and the concrete
289-versus-280 scenario reports 280 common districts. -/
theorem comparison_excludes_unshared_witness :
    commonDistricts (runAEx ++ [(9001, entryEx)]) runBEx =
      commonDistricts runAEx runBEx ∧
    seatMae ["ldp", "chudo"] (pairedOf runAEx (runBEx ++ [(9002, entryEx)])) =
      seatMae ["ldp", "chudo"] (pairedOf runAEx runBEx) ∧
    turnoutGap (pairedOf (runAEx ++ [(9001, entryEx)]) runBEx) =
      turnoutGap (pairedOf runAEx runBEx) ∧
    commonDistricts runAEx runBEx = 280 := by
  have h := comparison_excludes_unshared runAEx runBEx [(9001, entryEx)]
    [(9002, entryEx)] ["ldp", "chudo"] (fun p => p == "ldp") 233
    (by decide) (by decide)
  exact ⟨h.1.1, h.2.2.2.1.2, h.2.2.2.2.2.2.2.1.1, h.2.2.2.2.2.2.2.2.1⟩

end ElectionSim
